import Mathlib

/-!
Verification of the request/retry/pagination/orchestration engine of the
facebook-ads-api-dumper program (src/main.go), via a shallow embedding.

The upstream HTTP service and the filesystem are modelled as explicit
oracles (functions or lists supplied as arguments); everything else is
translated directly from the Go source.
-/

/-! ## Request executor (src/main.go, makeRequestWithRetry) -/

/-- The structured error envelope the Go code tries to unmarshal from a
hard-error body: fields message, type and code. -/
structure ErrorEnvelope where
  message : String
  etype : String
  code : Int
deriving Repr, DecidableEq

/-- Classified failures returned by makeRequestWithRetry. -/
inductive ApiError (β : Type) where
  | rateLimitExceeded (retries : Nat)
  | structured (status : Nat) (env : ErrorEnvelope)
  | raw (status : Nat) (body : β)
deriving Repr, DecidableEq

/-- An HTTP response as seen by the executor: a status code and a body.
The body type is abstract; parsing of the body is an oracle argument. -/
structure HttpResponse (β : Type) where
  status : Nat
  body : β
deriving Repr, DecidableEq

/-- Result of one logical request: the returned body (Go returns the body
together with the error for hard errors), the error, the number of HTTP
requests actually issued, and the list of backoff sleeps performed, in
seconds, in order. -/
structure ExecResult (β : Type) where
  body : Option β
  err : Option (ApiError β)
  requests : Nat
  sleeps : List Nat
deriving Repr, DecidableEq

/-- Go: resp.StatusCode == 429 or resp.StatusCode == 17. -/
def isRateLimited (status : Nat) : Bool :=
  status == 429 || status == 17

/-- Shallow embedding of makeRequestWithRetry (src/main.go lines 82-154).
The network is the oracle respond, indexed by how many requests were
issued so far in this logical request; parseErr is the oracle for
json.Unmarshal of the error envelope. On a rate-limited status with
retryCount less than 3 the code sleeps 2^retryCount seconds and reissues
the identical request; otherwise it classifies and returns. -/
def makeRequestWithRetry {β : Type} (respond : Nat → HttpResponse β)
    (parseErr : β → Option ErrorEnvelope) (reqIdx retryCount : Nat) :
    ExecResult β :=
  let resp := respond reqIdx
  if isRateLimited resp.status then
    if h : retryCount < 3 then
      let r := makeRequestWithRetry respond parseErr (reqIdx + 1) (retryCount + 1)
      { r with requests := r.requests + 1, sleeps := 2 ^ retryCount :: r.sleeps }
    else
      { body := none, err := some (.rateLimitExceeded retryCount),
        requests := 1, sleeps := [] }
  else if resp.status ≠ 200 then
    match parseErr resp.body with
    | some env =>
        { body := some resp.body, err := some (.structured resp.status env),
          requests := 1, sleeps := [] }
    | none =>
        { body := some resp.body, err := some (.raw resp.status resp.body),
          requests := 1, sleeps := [] }
  else
    { body := some resp.body, err := none, requests := 1, sleeps := [] }
termination_by 3 - retryCount
decreasing_by omega

/-- Go: makeRequest(endpoint) = makeRequestWithRetry(endpoint, 0). -/
def makeRequest {β : Type} (respond : Nat → HttpResponse β)
    (parseErr : β → Option ErrorEnvelope) : ExecResult β :=
  makeRequestWithRetry respond parseErr 0 0

theorem makeRequestWithRetry_success {β : Type} (respond : Nat → HttpResponse β)
    (parseErr : β → Option ErrorEnvelope) :
    ∀ (m i r : Nat), r + m ≤ 3 →
    (∀ k, k < m → isRateLimited (respond (i + k)).status = true) →
    (respond (i + m)).status = 200 →
    makeRequestWithRetry respond parseErr i r =
      { body := some (respond (i + m)).body, err := none, requests := m + 1,
        sleeps := (List.range m).map (fun k => 2 ^ (r + k)) } := by
  intro m
  induction m with
  | zero =>
      intro i r _ _ h200
      rw [makeRequestWithRetry]
      simp only [Nat.add_zero] at h200
      simp [isRateLimited, h200]
  | succ m ih =>
      intro i r hle hrl h200
      rw [makeRequestWithRetry]
      have h0 : isRateLimited (respond i).status = true := by
        have := hrl 0 (Nat.succ_pos m)
        simpa using this
      have hr3 : r < 3 := by omega
      have hrec := ih (i + 1) (r + 1) (by omega)
        (fun k hk => by
          have := hrl (k + 1) (by omega)
          simpa [Nat.add_assoc, Nat.add_comm 1 k] using this)
        (by simpa [Nat.add_assoc, Nat.add_comm 1 m] using h200)
      simp only [h0, if_true, hr3, dif_pos]
      rw [show i + 1 + m = i + (m + 1) from by omega] at hrec
      have hsleeps : (List.range (m + 1)).map (fun k => 2 ^ (r + k)) =
          2 ^ r :: (List.range m).map (fun k => 2 ^ (r + 1 + k)) := by
        rw [List.range_succ_eq_map, List.map_cons, List.map_map]
        simp only [List.cons.injEq]
        refine ⟨by rw [Nat.add_zero], ?_⟩
        apply List.map_congr_left
        intro k _
        simp only [Function.comp_apply]
        congr 1
        omega
      rw [hrec, hsleeps]

theorem makeRequestWithRetry_exhausted {β : Type} (respond : Nat → HttpResponse β)
    (parseErr : β → Option ErrorEnvelope) :
    ∀ (m i r : Nat), r + m = 3 →
    (∀ k, k ≤ m → isRateLimited (respond (i + k)).status = true) →
    makeRequestWithRetry respond parseErr i r =
      { body := none, err := some (.rateLimitExceeded 3), requests := m + 1,
        sleeps := (List.range m).map (fun k => 2 ^ (r + k)) } := by
  intro m
  induction m with
  | zero =>
      intro i r hr hrl
      rw [makeRequestWithRetry]
      have h0 : isRateLimited (respond i).status = true := by
        have := hrl 0 (Nat.le_refl 0)
        simpa using this
      have : ¬ r < 3 := by omega
      simp only [h0, if_true, this, dif_neg, not_false_iff]
      simp only [Nat.add_zero] at hr
      simp [hr]
  | succ m ih =>
      intro i r hr hrl
      rw [makeRequestWithRetry]
      have h0 : isRateLimited (respond i).status = true := by
        have := hrl 0 (Nat.zero_le _)
        simpa using this
      have hr3 : r < 3 := by omega
      have hrec := ih (i + 1) (r + 1) (by omega)
        (fun k hk => by
          have := hrl (k + 1) (by omega)
          simpa [Nat.add_assoc, Nat.add_comm 1 k] using this)
      simp only [h0, if_true, hr3, dif_pos]
      have hsleeps : (List.range (m + 1)).map (fun k => 2 ^ (r + k)) =
          2 ^ r :: (List.range m).map (fun k => 2 ^ (r + 1 + k)) := by
        rw [List.range_succ_eq_map, List.map_cons, List.map_map]
        simp only [List.cons.injEq]
        refine ⟨by rw [Nat.add_zero], ?_⟩
        apply List.map_congr_left
        intro k _
        simp only [Function.comp_apply]
        congr 1
        omega
      rw [hrec, hsleeps]

/-- Claim C2: given M consecutive rate-limited responses, if M is at most
3 the executor returns the success body having slept 2 to the power k
seconds on retry k for k in 0..M-1 and having issued M+1 requests; if M
exceeds 3 it returns a rate-limit-exceeded failure after exactly 4
requests and sleeps of 1, 2 and 4 seconds, issuing no 5th request. -/
theorem claim_C2_retry_backoff {β : Type} (respond : Nat → HttpResponse β)
    (parseErr : β → Option ErrorEnvelope) (M : Nat)
    (hrl : ∀ k, k < min M 4 → isRateLimited (respond k).status = true) :
    (M ≤ 3 → (respond M).status = 200 →
      makeRequestWithRetry respond parseErr 0 0 =
        { body := some (respond M).body, err := none, requests := M + 1,
          sleeps := (List.range M).map (fun k => 2 ^ k) }) ∧
    (M > 3 →
      makeRequestWithRetry respond parseErr 0 0 =
        { body := none, err := some (.rateLimitExceeded 3), requests := 4,
          sleeps := [1, 2, 4] }) := by
  constructor
  · intro hM h200
    have := makeRequestWithRetry_success respond parseErr M 0 0 (by omega)
      (fun k hk => by
        have := hrl k (by omega)
        simpa using this)
      (by simpa using h200)
    simpa using this
  · intro hM
    have := makeRequestWithRetry_exhausted respond parseErr 3 0 0 (by omega)
      (fun k hk => by
        have := hrl k (by omega)
        simpa using this)
    have hs : (List.range 3).map (fun k => 2 ^ (0 + k)) = [1, 2, 4] := by decide
    rw [this, hs]

/-- Concrete instantiation of claim C2: two rate-limited responses then a
success, and five rate-limited responses. -/
theorem claim_C2_retry_backoff_witness :
    (makeRequestWithRetry
        (fun i => if i < 2 then ⟨429, (0 : Nat)⟩ else ⟨200, 7⟩)
        (fun _ => none) 0 0 =
      { body := some ((if (2 : Nat) < 2 then (⟨429, (0 : Nat)⟩ : HttpResponse Nat) else ⟨200, 7⟩)).body,
        err := none, requests := 2 + 1,
        sleeps := (List.range 2).map (fun k => 2 ^ k) }) ∧
    (makeRequestWithRetry (fun _ => (⟨429, (0 : Nat)⟩ : HttpResponse Nat))
        (fun _ => none) 0 0 =
      { body := none, err := some (.rateLimitExceeded 3), requests := 4,
        sleeps := [1, 2, 4] }) := by
  constructor
  · exact (claim_C2_retry_backoff
      (fun i => if i < 2 then ⟨429, (0 : Nat)⟩ else ⟨200, 7⟩)
      (fun _ => none) 2 (by decide)).1 (by decide) (by decide)
  · exact (claim_C2_retry_backoff (fun _ => (⟨429, (0 : Nat)⟩ : HttpResponse Nat))
      (fun _ => none) 5 (by decide)).2 (by decide)

/-- Claim C3: a response whose status is neither 200 nor rate-limited is
never retried: exactly one request, no sleeps, and the error is the
structured envelope when the body parses as one, else the raw body. -/
theorem claim_C3_hard_error {β : Type} (respond : Nat → HttpResponse β)
    (parseErr : β → Option ErrorEnvelope)
    (hnr : isRateLimited (respond 0).status = false)
    (h200 : (respond 0).status ≠ 200) :
    makeRequestWithRetry respond parseErr 0 0 =
      { body := some (respond 0).body,
        err := some (match parseErr (respond 0).body with
          | some env => .structured (respond 0).status env
          | none => .raw (respond 0).status (respond 0).body),
        requests := 1, sleeps := [] } := by
  rw [makeRequestWithRetry]
  simp only [hnr, Bool.false_eq_true, if_false, h200, ite_not]
  split <;> simp_all

/-- Concrete instantiation of claim C3: a status-400 response with a
parseable error envelope. -/
theorem claim_C3_hard_error_witness :
    makeRequestWithRetry (fun _ => (⟨400, (5 : Nat)⟩ : HttpResponse Nat))
        (fun b => if b == 5 then some ⟨"bad", "OAuthException", 190⟩ else none) 0 0 =
      { body := some ((⟨400, (5 : Nat)⟩ : HttpResponse Nat)).body,
        err := some (match (if (5 : Nat) == 5 then some (⟨"bad", "OAuthException", 190⟩ : ErrorEnvelope) else none) with
          | some env => ApiError.structured 400 env
          | none => ApiError.raw 400 5),
        requests := 1, sleeps := [] } := by
  exact claim_C3_hard_error (fun _ => (⟨400, (5 : Nat)⟩ : HttpResponse Nat))
    (fun b => if b == 5 then some ⟨"bad", "OAuthException", 190⟩ else none)
    (by decide) (by decide)

/-! ## Paginator (src/main.go, fetchPaginated) -/

/-- The outcome the upstream and the JSON decoder produce for one page of
a paginated fetch: a decoded page (its data items and its paging cursor
named after), a makeRequest failure, or a body that does not unmarshal as
a PaginatedResponse. -/
inductive PageResult (ι : Type) where
  | ok (pdata : List ι) (after : String)
  | reqError
  | parseError
deriving Repr, DecidableEq

/-- Failure classification of fetchPaginated and fetchAdAccounts. -/
inductive FetchErr where
  | request
  | parse
  | upstreamExhausted
deriving Repr, DecidableEq

/-- Result of fetchPaginated, mirroring the Go multiple return: the
accumulated items, the error (none on success), and the list of endpoint
strings actually requested, in order. -/
structure FetchResult (ι : Type) where
  data : List ι
  err : Option FetchErr
  endpoints : List String
deriving Repr, DecidableEq

/-- Go (src/main.go lines 170-178): the cursor is appended to the base
endpoint with the separator chosen by whether the base already holds a
query string; an empty cursor leaves the base unmodified. -/
def buildEndpoint (base cursor : String) : String :=
  if cursor = "" then base
  else if base.contains '?' then base ++ "&after=" ++ cursor
  else base ++ "?after=" ++ cursor

/-- Shallow embedding of the loop body of fetchPaginated (src/main.go
lines 156-211). The upstream is the oracle list pages, consumed one entry
per request; pageCount is the pre-increment Go pageCount, so the Go check
pageCount > MaxPages after the increment reads pageCount + 1 > maxPages
here. The upstreamExhausted branch is an artifact of the environment
model (the oracle ran out of entries); it is unreachable under the
hypotheses of the theorems below. -/
def fetchLoop {ι : Type} (maxPages : Nat) (base : String) :
    List (PageResult ι) → Nat → String → List ι → FetchResult ι
  | pages, pageCount, cursor, acc =>
    if maxPages > 0 ∧ pageCount + 1 > maxPages then
      { data := acc, err := none, endpoints := [] }
    else
      match pages with
      | [] =>
          { data := [], err := some .upstreamExhausted,
            endpoints := [buildEndpoint base cursor] }
      | .reqError :: _ =>
          { data := [], err := some .request,
            endpoints := [buildEndpoint base cursor] }
      | .parseError :: _ =>
          { data := [], err := some .parse,
            endpoints := [buildEndpoint base cursor] }
      | .ok pdata after :: rest =>
          if after = "" then
            { data := acc ++ pdata, err := none,
              endpoints := [buildEndpoint base cursor] }
          else
            let r := fetchLoop maxPages base rest (pageCount + 1) after (acc ++ pdata)
            { r with endpoints := buildEndpoint base cursor :: r.endpoints }

/-- Go: fetchPaginated starts with pageCount 0, no cursor and no
accumulated data. -/
def fetchPaginated {ι : Type} (maxPages : Nat) (base : String)
    (pages : List (PageResult ι)) : FetchResult ι :=
  fetchLoop maxPages base pages 0 "" []

/-- A well-formed cursor chain: a nonempty sequence of pages whose after
cursors are all nonempty except the last one, which is empty. -/
def chainOk {ι : Type} : List (List ι × String) → Bool
  | [] => false
  | [(_, c)] => c == ""
  | (_, c) :: p :: rest => (!(c == "")) && chainOk (p :: rest)

/-- Lift a list of (items, after-cursor) pairs to upstream page results. -/
def okPages {ι : Type} (ps : List (List ι × String)) : List (PageResult ι) :=
  ps.map (fun p => .ok p.1 p.2)

theorem fetchLoop_chain {ι : Type} (base : String) :
    ∀ (ps : List (List ι × String)) (pageCount : Nat) (cursor : String) (acc : List ι),
    chainOk ps = true →
    fetchLoop 0 base (okPages ps) pageCount cursor acc =
      { data := acc ++ (ps.map Prod.fst).flatten, err := none,
        endpoints := buildEndpoint base cursor ::
          ps.dropLast.map (fun p => buildEndpoint base p.2) } := by
  intro ps
  induction ps with
  | nil => intro _ _ _ h; simp [chainOk] at h
  | cons hd tl ih =>
      intro pageCount cursor acc h
      match tl, hd with
      | [], (d, c) =>
          have hc : c = "" := by simpa [chainOk] using h
          rw [fetchLoop.eq_def]
          simp [okPages, hc]
      | p :: rest, (d, c) =>
          have hc : ¬ c = "" := by
            have := h
            simp only [chainOk, Bool.and_eq_true, Bool.not_eq_true] at this
            simpa using this.1
          have htl : chainOk (p :: rest) = true := by
            have := h
            simp only [chainOk, Bool.and_eq_true] at this
            exact this.2
          rw [fetchLoop.eq_def]
          simp only [gt_iff_lt, Nat.lt_irrefl, false_and, if_false]
          simp only [okPages, List.map_cons]
          simp only [hc, if_neg, ite_false]
          have hok : PageResult.ok p.1 p.2 :: List.map (fun q => PageResult.ok q.1 q.2) rest
              = okPages (p :: rest) := by simp [okPages]
          rw [hok, ih (pageCount + 1) c (acc ++ d) htl]
          simp [List.dropLast_cons₂, List.append_assoc]

theorem chainOk_length_countP {ι : Type} :
    ∀ ps : List (List ι × String), chainOk ps = true →
    ps.length = ps.countP (fun p => !(p.2 == "")) + 1 := by
  intro ps
  induction ps with
  | nil => intro h; simp [chainOk] at h
  | cons hd tl ih =>
      intro h
      match tl, hd with
      | [], (d, c) =>
          have hc : c = "" := by simpa [chainOk] using h
          subst hc
          simp [List.countP_cons]
      | p :: rest, (d, c) =>
          have hc : ¬ c = "" := by
            simp only [chainOk, Bool.and_eq_true, Bool.not_eq_true] at h
            simpa using h.1
          have htl : chainOk (p :: rest) = true := by
            simp only [chainOk, Bool.and_eq_true] at h
            exact h.2
          have hih := ih htl
          have hb : (c == "") = false := by simpa using hc
          have hcount : ((d, c) :: p :: rest).countP (fun q => !(q.2 == ""))
              = ((p :: rest).countP (fun q => !(q.2 == ""))) + 1 := by
            simp [List.countP_cons, hb]
          have hlen : ((d, c) :: p :: rest).length = (p :: rest).length + 1 := rfl
          rw [hlen, hcount, hih]

/-- Claim C4: for a cursor chain ending in the empty cursor, the
paginator returns the concatenation of the page items in page order with
no error, and issues exactly one request per page, which is the number of
nonempty cursors plus one. -/
theorem claim_C4_pagination_concat {ι : Type} (base : String)
    (ps : List (List ι × String)) (h : chainOk ps = true) :
    (fetchPaginated 0 base (okPages ps)).data = (ps.map Prod.fst).flatten
    ∧ (fetchPaginated 0 base (okPages ps)).err = none
    ∧ (fetchPaginated 0 base (okPages ps)).endpoints.length = ps.length
    ∧ (fetchPaginated 0 base (okPages ps)).endpoints.length
        = ps.countP (fun p => !(p.2 == "")) + 1 := by
  have hch := fetchLoop_chain base ps 0 "" [] h
  have hne : ps ≠ [] := by
    intro he
    subst he
    simp [chainOk] at h
  have hpos : 0 < ps.length := List.length_pos.mpr hne
  unfold fetchPaginated
  rw [hch]
  have hlen : (buildEndpoint base "" ::
      ps.dropLast.map (fun p => buildEndpoint base p.2)).length = ps.length := by
    simp only [List.length_cons, List.length_map, List.length_dropLast]
    omega
  refine ⟨by simp, rfl, hlen, ?_⟩
  rw [hlen]
  exact chainOk_length_countP ps h

/-- Concrete instantiation of claim C4: two pages with items 1,2 then 3. -/
theorem claim_C4_pagination_concat_witness :
    (fetchPaginated 0 "ep" (okPages [([1, 2], "a"), ([3], "")])).data = [1, 2, 3]
    ∧ (fetchPaginated 0 "ep" (okPages [([1, 2], "a"), ([3], "")])).endpoints.length = 2 := by
  have h := claim_C4_pagination_concat "ep" [([1, 2], "a"), ([3], "")] (by decide)
  exact ⟨h.1.trans (by decide), h.2.2.1⟩

theorem fetchLoop_cap_le {ι : Type} (N : Nat) (base : String) (hN : 0 < N) :
    ∀ (pages : List (PageResult ι)) (pageCount : Nat) (cursor : String) (acc : List ι),
    (fetchLoop N base pages pageCount cursor acc).endpoints.length ≤ N - pageCount := by
  intro pages
  induction pages with
  | nil =>
      intro pageCount cursor acc
      rw [fetchLoop.eq_def]
      by_cases hcap : N > 0 ∧ pageCount + 1 > N
      · simp [hcap]
      · simp only [hcap, if_false]
        simp only [List.length_cons, List.length_nil]
        omega
  | cons p rest ih =>
      intro pageCount cursor acc
      rw [fetchLoop.eq_def]
      by_cases hcap : N > 0 ∧ pageCount + 1 > N
      · simp [hcap]
      · simp only [hcap, if_false]
        cases p with
        | reqError => simp only [List.length_cons, List.length_nil]; omega
        | parseError => simp only [List.length_cons, List.length_nil]; omega
        | ok pdata after =>
            by_cases haf : after = ""
            · simp only [haf, if_true, List.length_cons, List.length_nil]
              omega
            · simp only [haf, ite_false, List.length_cons]
              have := ih (pageCount + 1) after (acc ++ pdata)
              omega

theorem fetchLoop_cap_exact {ι : Type} (N : Nat) (base : String) (hN : 0 < N) :
    ∀ (ps : List (List ι × String)) (pageCount : Nat) (cursor : String) (acc : List ι),
    (∀ p ∈ ps, ¬ p.2 = "") → N ≤ pageCount + ps.length →
    (fetchLoop N base (okPages ps) pageCount cursor acc).data
        = acc ++ ((ps.take (N - pageCount)).map Prod.fst).flatten
    ∧ (fetchLoop N base (okPages ps) pageCount cursor acc).err = none
    ∧ (fetchLoop N base (okPages ps) pageCount cursor acc).endpoints.length
        = N - pageCount := by
  intro ps
  induction ps with
  | nil =>
      intro pageCount cursor acc _ hle
      have hcap : N > 0 ∧ pageCount + 1 > N := by
        constructor
        · omega
        · simp only [List.length_nil] at hle
          omega
      rw [fetchLoop.eq_def]
      simp only [okPages, List.map_nil, hcap, if_true]
      refine ⟨by simp, rfl, ?_⟩
      have hz : N - pageCount = 0 := by omega
      simp [hz]
  | cons hd tl ih =>
      intro pageCount cursor acc hcur hle
      obtain ⟨d, c⟩ := hd
      have hc : ¬ c = "" := hcur (d, c) (by simp)
      by_cases hcap : pageCount + 1 > N
      · rw [fetchLoop.eq_def]
        have hcap2 : N > 0 ∧ pageCount + 1 > N := ⟨by omega, hcap⟩
        simp only [hcap2, if_true]
        have hz : N - pageCount = 0 := by omega
        rw [hz]
        exact ⟨by simp, rfl, by simp⟩
      · rw [fetchLoop.eq_def]
        have hcap2 : ¬ (N > 0 ∧ pageCount + 1 > N) := by omega
        simp only [hcap2, if_false, okPages, List.map_cons]
        simp only [hc, ite_false]
        have hok : List.map (fun q => PageResult.ok q.1 q.2) tl = okPages tl := rfl
        rw [hok]
        have hrec := ih (pageCount + 1) c (acc ++ d)
          (fun p hp => hcur p (by simp [hp]))
          (by simp only [List.length_cons] at hle; omega)
        have hk : N - pageCount = (N - (pageCount + 1)) + 1 := by omega
        refine ⟨?_, hrec.2.1, ?_⟩
        · rw [hrec.1, hk, List.take_succ_cons]
          simp [List.append_assoc]
        · simp only [List.length_cons, hrec.2.2]
          omega

/-- Claim C5: with a positive page cap N the paginator issues at most N
requests whatever the upstream returns; when the cap stops it (N pages
available, all with nonempty cursors) the partial accumulation of the
first N pages is returned without error after exactly N requests; a cap
of 0 imposes no limit (one request per page of the whole chain). -/
theorem claim_C5_page_cap {ι : Type} (base : String) (N : Nat) (hN : 0 < N) :
    (∀ pages : List (PageResult ι),
        (fetchPaginated N base pages).endpoints.length ≤ N)
    ∧ (∀ ps : List (List ι × String), (∀ p ∈ ps, ¬ p.2 = "") → N ≤ ps.length →
        (fetchPaginated N base (okPages ps)).data
            = ((ps.take N).map Prod.fst).flatten
        ∧ (fetchPaginated N base (okPages ps)).err = none
        ∧ (fetchPaginated N base (okPages ps)).endpoints.length = N)
    ∧ (∀ ps : List (List ι × String), chainOk ps = true →
        (fetchPaginated 0 base (okPages ps)).endpoints.length = ps.length) := by
  refine ⟨?_, ?_, ?_⟩
  · intro pages
    have := fetchLoop_cap_le N base hN pages 0 "" []
    simpa [fetchPaginated] using this
  · intro ps hcur hlen
    have := fetchLoop_cap_exact N base hN ps 0 "" [] hcur (by omega)
    simpa [fetchPaginated] using this
  · intro ps h
    have hch := fetchLoop_chain base ps 0 "" [] h
    have hne : ps ≠ [] := by
      intro he
      subst he
      simp [chainOk] at h
    have hpos : 0 < ps.length := List.length_pos.mpr hne
    unfold fetchPaginated
    rw [hch]
    simp only [List.length_cons, List.length_map, List.length_dropLast]
    omega

/-- Concrete instantiation of claim C5: cap 2 against three pages with
nonempty cursors. -/
theorem claim_C5_page_cap_witness :
    (fetchPaginated 2 "ep" (okPages [([1], "a"), ([2], "b"), ([3], "c")])).data = [1, 2]
    ∧ (fetchPaginated 2 "ep" (okPages [([1], "a"), ([2], "b"), ([3], "c")])).err = none
    ∧ (fetchPaginated 2 "ep"
        (okPages [([1], "a"), ([2], "b"), ([3], "c")])).endpoints.length = 2 := by
  have h := (claim_C5_page_cap "ep" 2 (by decide)).2.1
    [([1], "a"), ([2], "b"), ([3], "c")] (by decide) (by decide)
  exact ⟨h.1.trans (by decide), h.2.1, h.2.2⟩

theorem fetchLoop_endpoints_head {ι : Type} (base : String)
    (pages : List (PageResult ι)) (pageCount : Nat) (cursor : String) (acc : List ι) :
    ∃ t, (fetchLoop 0 base pages pageCount cursor acc).endpoints
      = buildEndpoint base cursor :: t := by
  rw [fetchLoop.eq_def]
  simp only [gt_iff_lt, Nat.lt_irrefl, false_and, if_false]
  cases pages with
  | nil => exact ⟨[], rfl⟩
  | cons p rest =>
      cases p with
      | reqError => exact ⟨[], rfl⟩
      | parseError => exact ⟨[], rfl⟩
      | ok pdata after =>
          by_cases haf : after = ""
          · simp only [haf, if_true]
            exact ⟨[], rfl⟩
          · simp only [haf, ite_false]
            exact ⟨_, rfl⟩

/-- Claim C6: with no cap, an iteration terminates normally exactly when
the returned after cursor is empty; a page whose after cursor is nonempty
causes another request against the endpoint with that cursor appended,
even when the page carries zero items. -/
theorem claim_C6_cursor_termination {ι : Type} (base : String)
    (d : List ι) (after : String) (rest : List (PageResult ι)) :
    (after = "" →
      fetchPaginated 0 base (.ok d after :: rest) =
        { data := d, err := none, endpoints := [buildEndpoint base ""] })
    ∧ (¬ after = "" →
      ∃ t, (fetchPaginated 0 base (.ok d after :: rest)).endpoints
        = buildEndpoint base "" :: buildEndpoint base after :: t) := by
  constructor
  · intro haf
    subst haf
    unfold fetchPaginated
    rw [fetchLoop.eq_def]
    simp
  · intro haf
    unfold fetchPaginated
    rw [fetchLoop.eq_def]
    simp only [gt_iff_lt, Nat.lt_irrefl, false_and, if_false, haf, ite_false]
    obtain ⟨t, ht⟩ := fetchLoop_endpoints_head base rest 1 after ([] ++ d)
    exact ⟨t, by rw [ht]⟩

/-- Concrete instantiation of claim C6: a zero-length page with a
nonempty cursor is followed by a request carrying that cursor. -/
theorem claim_C6_cursor_termination_witness :
    ∃ t, (fetchPaginated 0 "ep" (PageResult.ok ([] : List Nat) "c2"
        :: [PageResult.ok [5] ""])).endpoints
      = buildEndpoint "ep" "" :: buildEndpoint "ep" "c2" :: t := by
  exact (claim_C6_cursor_termination "ep" ([] : List Nat) "c2"
    [PageResult.ok [5] ""]).2 (by decide)

theorem fetchLoop_error_discards {ι : Type} (base : String)
    (bad : PageResult ι) (rest : List (PageResult ι))
    (hbad : bad = .reqError ∨ bad = .parseError) :
    ∀ (ps : List (List ι × String)) (pageCount : Nat) (cursor : String) (acc : List ι),
    (∀ p ∈ ps, ¬ p.2 = "") →
    (fetchLoop 0 base (okPages ps ++ bad :: rest) pageCount cursor acc).data = []
    ∧ ((fetchLoop 0 base (okPages ps ++ bad :: rest)
          pageCount cursor acc).err).isSome = true := by
  intro ps
  induction ps with
  | nil =>
      intro pageCount cursor acc _
      rcases hbad with h | h <;> subst h <;> rw [fetchLoop.eq_def] <;> simp [okPages]
  | cons hd tl ih =>
      intro pageCount cursor acc hcur
      obtain ⟨d, c⟩ := hd
      have hc : ¬ c = "" := hcur (d, c) (by simp)
      rw [fetchLoop.eq_def]
      simp only [okPages, List.map_cons, List.cons_append, gt_iff_lt, Nat.lt_irrefl,
        false_and, if_false, hc, ite_false]
      exact ih (pageCount + 1) c (acc ++ d) (fun p hp => hcur p (by simp [hp]))

/-- Claim C10: if any page request fails or any page body fails to parse,
fetchPaginated returns nil items together with the error; items from
earlier successful pages are discarded. -/
theorem claim_C10_error_discards_partial {ι : Type} (base : String)
    (ps : List (List ι × String)) (bad : PageResult ι) (rest : List (PageResult ι))
    (hcur : ∀ p ∈ ps, ¬ p.2 = "")
    (hbad : bad = .reqError ∨ bad = .parseError) :
    (fetchPaginated 0 base (okPages ps ++ bad :: rest)).data = []
    ∧ ((fetchPaginated 0 base (okPages ps ++ bad :: rest)).err).isSome = true := by
  exact fetchLoop_error_discards base bad rest hbad ps 0 "" [] hcur

/-- Concrete instantiation of claim C10: one successful page with items,
then a failing request. -/
theorem claim_C10_error_discards_partial_witness :
    (fetchPaginated 0 "ep" (okPages [([1, 2], "a")]
        ++ PageResult.reqError :: [])).data = ([] : List Nat)
    ∧ ((fetchPaginated 0 "ep" (okPages [([1, 2], "a")]
        ++ PageResult.reqError :: [])).err).isSome = true := by
  exact claim_C10_error_discards_partial "ep" [([1, 2], "a")] PageResult.reqError []
    (by decide) (Or.inl rfl)

/-! ## Token masking and the debug-logged URL (src/main.go, maskToken and
the URL construction in makeRequestWithRetry) -/

/-- Go maskToken (src/main.go lines 71-76). Go slices bytes; this model
slices characters of the string data, which coincides for ASCII tokens. -/
def maskToken (token : String) : String :=
  if token.length ≤ 20 then "***"
  else ⟨token.data.take 10⟩ ++ "..." ++ ⟨token.data.drop (token.data.length - 10)⟩

theorem string_append_data (s t : String) : (s ++ t).data = s.data ++ t.data := rfl

theorem string_mk_data (l : List Char) : (String.mk l).data = l := rfl

/-- Go url.Values.Set: replace any existing binding of the key. -/
def setParam (q : List (String × String)) (k v : String) :
    List (String × String) :=
  q.filter (fun p => !(p.1 == k)) ++ [(k, v)]

/-- Go url.Values.Get: the first binding of the key. -/
def getParam : List (String × String) → String → Option String
  | [], _ => none
  | p :: rest, k => if p.1 == k then some p.2 else getParam rest k

/-- The URL pair built by makeRequestWithRetry (src/main.go lines
84-106): the requested URL carries the access token as a query
parameter; when debug is on, the logged URL carries the masked token in
its place (the real URL string was already formed before masking). -/
structure BuiltRequest where
  finalQuery : List (String × String)
  loggedQuery : Option (List (String × String))
deriving Repr, DecidableEq

def buildRequest (debug : Bool) (token : String)
    (baseQuery : List (String × String)) : BuiltRequest :=
  let query := setParam baseQuery "access_token" token
  { finalQuery := query,
    loggedQuery :=
      if debug then some (setParam query "access_token" (maskToken token))
      else none }

theorem getParam_setParam (k v : String) :
    ∀ q : List (String × String), getParam (setParam q k v) k = some v := by
  intro q
  induction q with
  | nil =>
      unfold setParam getParam
      simp
  | cons a q ih =>
      unfold setParam at ih ⊢
      by_cases ha : (a.1 == k) = true
      · rw [List.filter_cons]
        simp only [ha, Bool.not_true, if_false]
        exact ih
      · rw [List.filter_cons]
        have hfalse : (a.1 == k) = false := Bool.eq_false_iff.mpr ha
        have ha2 : (!(a.1 == k)) = true := by rw [hfalse]; rfl
        simp only [ha2, if_true, List.cons_append]
        unfold getParam
        rw [if_neg (by simp [hfalse])]
        exact ih

theorem maskToken_length (t : String) :
    (maskToken t).length = if t.length ≤ 20 then 3 else 23 := by
  unfold maskToken
  by_cases h : t.length ≤ 20
  · simp only [h, if_true]
    decide
  · rw [if_neg h, if_neg h]
    show ((⟨t.data.take 10⟩ : String) ++ "..." ++
        ⟨t.data.drop (t.data.length - 10)⟩).data.length = 23
    rw [string_append_data, string_append_data, string_mk_data, string_mk_data]
    simp only [List.length_append, List.length_take, List.length_drop]
    have h3 : ("...".data).length = 3 := rfl
    have hlen : t.length = t.data.length := rfl
    rw [h3]
    omega

/-- Counterexample to claim C9: for the credential string consisting of
three asterisks, the diagnostic rendering equals the cleartext token
itself, and the debug-logged URL carries exactly that cleartext value as
its access_token parameter. -/
theorem claim_C9_counterexample :
    maskToken "***" = "***"
    ∧ getParam ((buildRequest true "***" []).loggedQuery.getD []) "access_token"
        = some "***" := by
  constructor
  · decide
  · decide

/-- Claim C9 (amended): the requested URL carries the raw token while
the debug-logged URL always carries the masked rendering maskToken in
its place; the rendering is the literal three asterisks for token length
at most 20 and otherwise joins the first 10 and last 10 characters by an
ellipsis; the rendering differs from the cleartext token for every token
whose length is neither 3 nor 23 (tokens of those lengths can be fixed
points of the masking, as the counterexample shows). -/
theorem claim_C9_masked_logging (debug : Bool) (token : String)
    (baseQuery : List (String × String)) :
    getParam (buildRequest debug token baseQuery).finalQuery "access_token"
        = some token
    ∧ (debug = true →
        getParam ((buildRequest debug token baseQuery).loggedQuery.getD [])
            "access_token" = some (maskToken token))
    ∧ (token.length ≤ 20 → maskToken token = "***")
    ∧ (20 < token.length →
        (maskToken token).data
          = token.data.take 10 ++ "...".data
              ++ token.data.drop (token.data.length - 10))
    ∧ (¬ token.length = 3 → ¬ token.length = 23 → ¬ maskToken token = token) := by
  refine ⟨?_, ?_, ?_, ?_, ?_⟩
  · unfold buildRequest
    exact getParam_setParam "access_token" token baseQuery
  · intro hd
    unfold buildRequest
    simp only [hd, if_true, Option.getD_some]
    exact getParam_setParam "access_token" (maskToken token) _
  · intro h
    unfold maskToken
    rw [if_pos h]
  · intro h
    unfold maskToken
    rw [if_neg (by omega)]
    rw [string_append_data, string_append_data, string_mk_data, string_mk_data]
  · intro h3 h23 he
    have := congrArg String.length he
    rw [maskToken_length] at this
    by_cases h : token.length ≤ 20
    · rw [if_pos h] at this
      exact h3 this.symm
    · rw [if_neg h] at this
      exact h23 this.symm

/-- Concrete instantiation of claim C9 (amended): a short token is
rendered as three asterisks in the logged URL while the requested URL
keeps the raw token, and a 40-character token is not rendered as itself. -/
theorem claim_C9_masked_logging_witness :
    getParam ((buildRequest true "secret" []).loggedQuery.getD [])
        "access_token" = some (maskToken "secret")
    ∧ ¬ maskToken "0123456789012345678901234567890123456789"
        = "0123456789012345678901234567890123456789" := by
  constructor
  · exact (claim_C9_masked_logging true "secret" []).2.1 rfl
  · exact (claim_C9_masked_logging true
      "0123456789012345678901234567890123456789" []).2.2.2.2
      (by decide) (by decide)

/-! ## Account discovery and orchestration (src/main.go, fetchAdAccounts,
processAccount, main) -/

/-- An advertising account as unmarshalled by the discovery fetch. -/
structure AdAccount where
  id : String
  accountId : String
  name : String
  currency : String
deriving Repr, DecidableEq

/-- The fixed accessible-accounts endpoint (src/main.go line 238). -/
def adAccountsEndpoint : String :=
  "me/adaccounts?fields=id,name,account_id,currency,timezone_name,account_status"

/-- Shallow embedding of fetchAdAccounts (src/main.go lines 237-253): a
single makeRequest against the fixed endpoint, then one unmarshal of an
AdAccountsResponse; only the data field of the first page is used, the
paging cursors are parsed but never followed. The oracle is the same
page stream a paginated fetch would consume, which makes the comparison
with fetchPaginated direct. -/
def fetchAdAccounts (pages : List (PageResult AdAccount)) :
    FetchResult AdAccount :=
  match pages with
  | [] =>
      { data := [], err := some .upstreamExhausted,
        endpoints := [adAccountsEndpoint] }
  | .reqError :: _ =>
      { data := [], err := some .request, endpoints := [adAccountsEndpoint] }
  | .parseError :: _ =>
      { data := [], err := some .parse, endpoints := [adAccountsEndpoint] }
  | .ok pdata _ :: _ =>
      { data := pdata, err := none, endpoints := [adAccountsEndpoint] }

/-- The five resource fetchers processAccount invokes per account
(src/main.go lines 352-370). -/
inductive Resource where
  | adAccountDetails
  | campaigns
  | adSets
  | ads
  | insights
deriving Repr, DecidableEq

def allResources : List Resource :=
  [.adAccountDetails, .campaigns, .adSets, .ads, .insights]

/-- Environment of one per-account step: whether os.MkdirAll fails for
the account directory, and the outcome of each resource fetch (none
means the fetch succeeded). -/
structure AccountEnv where
  mkdirFails : Bool
  fetchErr : Resource → Option FetchErr

/-- The only error processAccount itself returns: directory creation. -/
inductive StepErr where
  | mkdirFailed
deriving Repr, DecidableEq

/-- Observable outcome of one processAccount call: which fetchers were
invoked, which ones had their error logged, and the returned error. -/
structure AccountStepResult where
  invoked : List Resource
  loggedErrors : List Resource
  err : Option StepErr
deriving Repr, DecidableEq

/-- Go: if err := fetchX(...); err != nil then log.Printf — the error is
logged and dropped. -/
def logFetch (r : Resource) (res : Option FetchErr) : List Resource :=
  match res with
  | some _ => [r]
  | none => []

/-- Shallow embedding of processAccount (src/main.go lines 330-373):
when an output directory is configured and its creation fails the step
returns that error before any fetch; otherwise all five fetchers are
invoked in order, each failure is logged and swallowed, and the step
returns nil. -/
def processAccount (outputDir : String) (env : AccountEnv) :
    AccountStepResult :=
  let runFetches : AccountStepResult :=
    { invoked := allResources,
      loggedErrors :=
        logFetch .adAccountDetails (env.fetchErr .adAccountDetails)
        ++ logFetch .campaigns (env.fetchErr .campaigns)
        ++ logFetch .adSets (env.fetchErr .adSets)
        ++ logFetch .ads (env.fetchErr .ads)
        ++ logFetch .insights (env.fetchErr .insights),
      err := none }
  if outputDir = "" then runFetches
  else if env.mkdirFails then
    { invoked := [], loggedErrors := [], err := some .mkdirFailed }
  else runFetches

/-- Observable outcome of one run of main after flag parsing. -/
structure RunOutcome where
  fatal : Bool
  noAccounts : Bool
  steps : List AccountStepResult
  successCount : Nat
  totalAccounts : Nat
deriving Repr, DecidableEq

/-- The per-account loop of main (src/main.go lines 436-444): process
each account in order; an error from processAccount is logged, success
increments the tally. The environment of the account at position i is
envOf i. -/
def runLoop (outputDir : String) (envOf : Nat → AccountEnv) :
    List AdAccount → Nat → List AccountStepResult × Nat
  | [], _ => ([], 0)
  | _ :: rest, i =>
    let r := processAccount outputDir (envOf i)
    let tailRes := runLoop outputDir envOf rest (i + 1)
    (r :: tailRes.1,
      match r.err with
      | none => tailRes.2 + 1
      | some _ => tailRes.2)

/-- Shallow embedding of main after flag parsing (src/main.go lines
407-449): discover accounts (log.Fatalf terminates the run on failure),
return early when none were found, otherwise process every account
sequentially and tally successes. -/
def runMain (outputDir : String) (envOf : Nat → AccountEnv)
    (discPages : List (PageResult AdAccount)) : RunOutcome :=
  if (fetchAdAccounts discPages).err ≠ none then
    { fatal := true, noAccounts := false, steps := [], successCount := 0,
      totalAccounts := 0 }
  else if (fetchAdAccounts discPages).data.isEmpty then
    { fatal := false, noAccounts := true, steps := [], successCount := 0,
      totalAccounts := 0 }
  else
    { fatal := false, noAccounts := false,
      steps := (runLoop outputDir envOf (fetchAdAccounts discPages).data 0).1,
      successCount := (runLoop outputDir envOf (fetchAdAccounts discPages).data 0).2,
      totalAccounts := (fetchAdAccounts discPages).data.length }

theorem runLoop_steps (outputDir : String) (envOf : Nat → AccountEnv) :
    ∀ (accts : List AdAccount) (i : Nat),
    (runLoop outputDir envOf accts i).1
      = (List.range accts.length).map (fun j => processAccount outputDir (envOf (i + j))) := by
  intro accts
  induction accts with
  | nil => intro i; rfl
  | cons a rest ih =>
      intro i
      unfold runLoop
      simp only [List.length_cons]
      rw [List.range_succ_eq_map, List.map_cons, List.map_map]
      simp only [List.cons.injEq]
      constructor
      · rw [Nat.add_zero]
      · rw [ih (i + 1)]
        apply List.map_congr_left
        intro k _
        simp only [Function.comp_apply, Nat.succ_eq_add_one]
        have hidx : i + 1 + k = i + (k + 1) := by omega
        rw [hidx]

theorem runLoop_tally (outputDir : String) (envOf : Nat → AccountEnv) :
    ∀ (accts : List AdAccount) (i : Nat),
    (runLoop outputDir envOf accts i).2
      = (runLoop outputDir envOf accts i).1.countP (fun s => s.err.isNone) := by
  intro accts
  induction accts with
  | nil => intro i; rfl
  | cons a rest ih =>
      intro i
      unfold runLoop
      simp only [List.countP_cons]
      cases he : (processAccount outputDir (envOf i)).err <;>
        simp [he, ih (i + 1)]

theorem processAccount_err_eq (outputDir : String) (env : AccountEnv) :
    (processAccount outputDir env).err
      = if ¬ outputDir = "" ∧ env.mkdirFails = true then some StepErr.mkdirFailed
        else none := by
  unfold processAccount
  by_cases ho : outputDir = "" <;> cases hm : env.mkdirFails <;> simp [ho, hm]

theorem processAccount_invoked (outputDir : String) (env : AccountEnv)
    (h : ¬ (¬ outputDir = "" ∧ env.mkdirFails = true)) :
    (processAccount outputDir env).invoked = allResources
    ∧ (processAccount outputDir env).err = none := by
  unfold processAccount
  by_cases ho : outputDir = ""
  · simp [ho]
  · cases hm : env.mkdirFails
    · simp [ho, hm]
    · exact absurd ⟨ho, hm⟩ h

theorem runLoop_get (outputDir : String) (envOf : Nat → AccountEnv) :
    ∀ (accts : List AdAccount) (i j : Nat)
      (h : j < (runLoop outputDir envOf accts i).1.length),
    (runLoop outputDir envOf accts i).1.get ⟨j, h⟩
      = processAccount outputDir (envOf (i + j)) := by
  intro accts
  induction accts with
  | nil =>
      intro i j h
      simp [runLoop] at h
  | cons a rest ih =>
      intro i j h
      cases j with
      | zero => simp [runLoop]
      | succ j =>
          have hcons : (runLoop outputDir envOf (a :: rest) i).1
              = processAccount outputDir (envOf i)
                :: (runLoop outputDir envOf rest (i + 1)).1 := rfl
          have h2 : j < (runLoop outputDir envOf rest (i + 1)).1.length := by
            rw [hcons] at h
            simpa using h
          have hstep : (runLoop outputDir envOf (a :: rest) i).1.get ⟨j + 1, h⟩
              = (runLoop outputDir envOf rest (i + 1)).1.get ⟨j, h2⟩ := by
            simp [hcons]
          rw [hstep, ih (i + 1) j h2]
          have hidx : i + 1 + j = i + (j + 1) := by omega
          rw [hidx]

/-- Claim C1: whenever discovery succeeds, the run is not fatal, every
discovered account is processed, and for each account whose directory
setup does not fail the step invokes all five resource fetchers and
returns no error, whatever the outcomes of the individual fetches are:
per-resource failures never stop later fetchers, later accounts, or the
run. -/
theorem claim_C1_failure_isolation (outputDir : String)
    (envOf : Nat → AccountEnv) (discPages : List (PageResult AdAccount))
    (hdisc : (fetchAdAccounts discPages).err = none) :
    (runMain outputDir envOf discPages).fatal = false
    ∧ (runMain outputDir envOf discPages).steps.length
        = (fetchAdAccounts discPages).data.length
    ∧ (∀ i, ∀ h : i < (runMain outputDir envOf discPages).steps.length,
        (runMain outputDir envOf discPages).steps.get ⟨i, h⟩
            = processAccount outputDir (envOf i)
        ∧ (¬ (¬ outputDir = "" ∧ (envOf i).mkdirFails = true) →
            ((runMain outputDir envOf discPages).steps.get ⟨i, h⟩).invoked
                = allResources
            ∧ ((runMain outputDir envOf discPages).steps.get ⟨i, h⟩).err
                = none)) := by
  have h1 : ¬ ((fetchAdAccounts discPages).err ≠ none) := by simp [hdisc]
  by_cases hemp : (fetchAdAccounts discPages).data.isEmpty
  · have hrm : runMain outputDir envOf discPages
        = { fatal := false, noAccounts := true, steps := [], successCount := 0,
            totalAccounts := 0 } := by
      unfold runMain
      rw [if_neg h1, if_pos hemp]
    have hlen : (fetchAdAccounts discPages).data.length = 0 := by
      rw [List.isEmpty_iff] at hemp
      simp [hemp]
    rw [hrm]
    refine ⟨rfl, by simp [hlen], ?_⟩
    intro i h
    simp at h
  · have hrm : runMain outputDir envOf discPages
        = { fatal := false, noAccounts := false,
            steps := (runLoop outputDir envOf (fetchAdAccounts discPages).data 0).1,
            successCount := (runLoop outputDir envOf (fetchAdAccounts discPages).data 0).2,
            totalAccounts := (fetchAdAccounts discPages).data.length } := by
      unfold runMain
      rw [if_neg h1, if_neg hemp]
    rw [hrm]
    refine ⟨rfl, ?_, ?_⟩
    · rw [runLoop_steps]
      simp
    · intro i h
      have hget : (runLoop outputDir envOf (fetchAdAccounts discPages).data 0).1.get ⟨i, h⟩
          = processAccount outputDir (envOf (0 + i)) :=
        runLoop_get outputDir envOf (fetchAdAccounts discPages).data 0 i h
      rw [Nat.zero_add] at hget
      refine ⟨hget, fun hmk => ?_⟩
      rw [hget]
      exact processAccount_invoked outputDir (envOf i) hmk

/-- Concrete instantiation of claim C1. -/
def acctA : AdAccount :=
  { id := "act_1", accountId := "1", name := "A", currency := "USD" }

def acctB : AdAccount :=
  { id := "act_2", accountId := "2", name := "B", currency := "EUR" }

/-- One account whose directory setup succeeds and whose five resource
fetches all fail. -/
def envAllFail : AccountEnv :=
  { mkdirFails := false, fetchErr := fun _ => some FetchErr.request }

/-- Concrete instantiation of claim C1: one discovered account whose
fetches all fail is still fully processed without a fatal outcome. -/
theorem claim_C1_failure_isolation_witness :
    (runMain "" (fun _ => envAllFail) [PageResult.ok [acctA] ""]).fatal = false
    ∧ (runMain "" (fun _ => envAllFail) [PageResult.ok [acctA] ""]).steps.length
        = (fetchAdAccounts [PageResult.ok [acctA] ""]).data.length := by
  have h := claim_C1_failure_isolation "" (fun _ => envAllFail)
    [PageResult.ok [acctA] ""] rfl
  exact ⟨h.1, h.2.1⟩

/-- Claim C7: whenever discovery succeeds, the success tally counts
exactly the per-account steps that return no internally-tracked error,
every account yields a step, and the error of a step is determined by
the directory setup alone — some mkdirFailed exactly when an output
directory is configured and its creation fails — independent of every
resource fetch outcome, so an account whose fetches all fail still
counts as successfully processed. -/
theorem claim_C7_success_tally (outputDir : String)
    (envOf : Nat → AccountEnv) (discPages : List (PageResult AdAccount))
    (hdisc : (fetchAdAccounts discPages).err = none) :
    (runMain outputDir envOf discPages).successCount
      = (runMain outputDir envOf discPages).steps.countP (fun s => s.err.isNone)
    ∧ (runMain outputDir envOf discPages).steps.length
      = (fetchAdAccounts discPages).data.length
    ∧ (∀ env : AccountEnv, (processAccount outputDir env).err
        = if ¬ outputDir = "" ∧ env.mkdirFails = true then some StepErr.mkdirFailed
          else none) := by
  have h1 : ¬ ((fetchAdAccounts discPages).err ≠ none) := by simp [hdisc]
  by_cases hemp : (fetchAdAccounts discPages).data.isEmpty
  · have hrm : runMain outputDir envOf discPages
        = { fatal := false, noAccounts := true, steps := [], successCount := 0,
            totalAccounts := 0 } := by
      unfold runMain
      rw [if_neg h1, if_pos hemp]
    have hlen : (fetchAdAccounts discPages).data.length = 0 := by
      rw [List.isEmpty_iff] at hemp
      simp [hemp]
    rw [hrm]
    exact ⟨rfl, by simp [hlen], fun env => processAccount_err_eq outputDir env⟩
  · have hrm : runMain outputDir envOf discPages
        = { fatal := false, noAccounts := false,
            steps := (runLoop outputDir envOf (fetchAdAccounts discPages).data 0).1,
            successCount := (runLoop outputDir envOf (fetchAdAccounts discPages).data 0).2,
            totalAccounts := (fetchAdAccounts discPages).data.length } := by
      unfold runMain
      rw [if_neg h1, if_neg hemp]
    rw [hrm]
    refine ⟨runLoop_tally outputDir envOf (fetchAdAccounts discPages).data 0, ?_,
      fun env => processAccount_err_eq outputDir env⟩
    rw [runLoop_steps]
    simp

/-- Concrete instantiation of claim C7: the account whose five fetches
all fail is still tallied as a success. -/
theorem claim_C7_success_tally_witness :
    (runMain "" (fun _ => envAllFail) [PageResult.ok [acctA] ""]).successCount = 1 := by
  have h := claim_C7_success_tally "" (fun _ => envAllFail)
    [PageResult.ok [acctA] ""] rfl
  exact h.1.trans (by decide)

/-- Counterexample to claim C8: with an accessible-accounts upstream of
two pages whose first page carries a nonempty after cursor, discovery
issues one request and returns only the first page of accounts; a
pagination-following fetch of the same stream returns both, so the
discovered list does not span all pages. -/
theorem claim_C8_counterexample :
    (fetchAdAccounts [PageResult.ok [acctA] "CUR", PageResult.ok [acctB] ""]).data
        = [acctA]
    ∧ (fetchAdAccounts [PageResult.ok [acctA] "CUR",
        PageResult.ok [acctB] ""]).endpoints.length = 1
    ∧ (fetchPaginated 0 adAccountsEndpoint
          [PageResult.ok [acctA] "CUR", PageResult.ok [acctB] ""]).data
        = [acctA, acctB]
    ∧ ¬ (fetchAdAccounts [PageResult.ok [acctA] "CUR", PageResult.ok [acctB] ""]).data
        = (fetchPaginated 0 adAccountsEndpoint
            [PageResult.ok [acctA] "CUR", PageResult.ok [acctB] ""]).data := by
  refine ⟨rfl, rfl, by decide, by decide⟩

/-- Claim C8 (amended): account discovery is a single-shot fetch, not a
paginated one: it issues exactly one request against the fixed
accessible-accounts endpoint and returns only the first page of
accounts, ignoring its paging cursor; a discovery failure is fatal to
the run, surfaced through the distinct fatal outcome, with no account
processed and no resource fetcher invoked. -/
theorem claim_C8_discovery_single_shot (outputDir : String)
    (envOf : Nat → AccountEnv) (discPages : List (PageResult AdAccount)) :
    (fetchAdAccounts discPages).endpoints = [adAccountsEndpoint]
    ∧ (∀ d after rest, discPages = PageResult.ok d after :: rest →
        (fetchAdAccounts discPages).data = d)
    ∧ (∀ e, (fetchAdAccounts discPages).err = some e →
        runMain outputDir envOf discPages =
          { fatal := true, noAccounts := false, steps := [], successCount := 0,
            totalAccounts := 0 }) := by
  refine ⟨?_, ?_, ?_⟩
  · cases discPages with
    | nil => rfl
    | cons p rest => cases p <;> rfl
  · intro d after rest hd
    subst hd
    rfl
  · intro e he
    unfold runMain
    rw [if_pos (by simp [he])]

/-- Concrete instantiation of claim C8 (amended): a failing discovery
request makes the run fatal with no account processed. -/
theorem claim_C8_discovery_single_shot_witness :
    runMain "" (fun _ => envAllFail) [PageResult.reqError] =
      { fatal := true, noAccounts := false, steps := [], successCount := 0,
        totalAccounts := 0 } := by
  exact (claim_C8_discovery_single_shot "" (fun _ => envAllFail)
    [PageResult.reqError]).2.2 FetchErr.request rfl
